import Mathlib

/-!
Verification development for the content store and markdown transform
pipeline of a static blog repository.

The relevant source files are:
* `src/content.config.ts` — the content collection: a zod front-matter
  schema and the `getPosts` query helper;
* `astro.config.mjs` — the transform pipeline configuration, including
  the repository-defined `insertLeadingH2` remark plugin;
* `src/pages/blog/index.astro` — the listing page, which sorts the posts
  by date descending with JavaScript's in-place `Array.prototype.sort`.

Syntax trees (mdast/hast) are embedded as a single `Node` type carrying
the fields the pipeline stages inspect: `type`, `depth` (headings),
`value` (text / math source), `url` (links' href) and `target` (the
anchor attribute outbound-link annotation would set), plus children.
-/

/-- Syntax tree node (mdast/hast), with the fields used by the pipeline
stages: node type tag, heading depth, literal value, link url (href),
link target attribute, and child nodes. -/
inductive Node where
  | mk (type : String) (depth : Nat) (value : String) (url : String)
       (target : Option String) (children : List Node)
deriving Repr

/-- The `type` field of a node. -/
def Node.type : Node → String
  | .mk t _ _ _ _ _ => t

/-- The `depth` field of a node (meaningful on headings). -/
def Node.depth : Node → Nat
  | .mk _ d _ _ _ _ => d

/-- The `value` field of a node (meaningful on text and math nodes). -/
def Node.value : Node → String
  | .mk _ _ v _ _ _ => v

/-- The `url` field of a node (a link's href). -/
def Node.url : Node → String
  | .mk _ _ _ u _ _ => u

/-- The `target` attribute of a node (meaningful on anchors). -/
def Node.target : Node → Option String
  | .mk _ _ _ _ tg _ => tg

/-- The children of a node. -/
def Node.children : Node → List Node
  | .mk _ _ _ _ _ cs => cs

/-- From `astro.config.mjs`: the predicate of the `findIndex` call in
`insertLeadingH2` — a node is a content node when its type is not one of
the MDX import/export/metadata types `["mdxjsEsm", "import", "export"]`. -/
def isContentNode (n : Node) : Bool :=
  !(["mdxjsEsm", "import", "export"].contains n.type)

/-- The synthetic heading `insertLeadingH2` splices in:
`{ type: "heading", depth: 2, children: [{ type: "text", value: text }] }`. -/
def syntheticH2 (text : String) : Node :=
  .mk "heading" 2 "" "" none [.mk "text" 0 text "" none []]

/-- From `astro.config.mjs` (`insertLeadingH2` body): walk the children,
skipping MDX import/export nodes; at the first content node, stop — if it
is already a level-2 heading leave the list unchanged, otherwise splice
the synthetic heading in right before it.  This recursion is the
`findIndex` + `splice(firstContentIndex, 0, …)` of the source: the nodes
before the first content node are kept, and the insertion (or no-op)
happens at that index.  If no content node exists (`findIndex` returns
-1), the list is returned unchanged. -/
def insertLeadingH2Children (text : String) : List Node → List Node
  | [] => []
  | n :: ns =>
    if isContentNode n then
      if n.type == "heading" && n.depth == 2 then n :: ns
      else syntheticH2 text :: n :: ns
    else n :: insertLeadingH2Children text ns

/-- From `astro.config.mjs`: the `insertLeadingH2` remark plugin applied
to a tree — it rewrites the tree's top-level children and leaves every
other field alone. -/
def insertLeadingH2 (text : String) (tree : Node) : Node :=
  .mk tree.type tree.depth tree.value tree.url tree.target
    (insertLeadingH2Children text tree.children)

/-- A front-matter value as it reaches the zod schema: a string, a
boolean, or a number. -/
inductive FMValue where
  | str (s : String)
  | boolVal (b : Bool)
  | num (n : Int)
deriving Repr, DecidableEq

/-- Calendar date, the model of a successfully coerced JavaScript `Date`.
Only the date components matter to this repository (front-matter dates
are day-precision ISO strings). -/
structure SimpleDate where
  year : Nat
  month : Nat
  day : Nat
deriving Repr, DecidableEq

/-- Model of `Date.prototype.valueOf`: an encoding that is strictly
monotone in the calendar order (year, then month, then day), which is the
only property of the epoch-milliseconds value the repository uses (the
sort comparator in `src/pages/blog/index.astro`). -/
def SimpleDate.valueOf (d : SimpleDate) : Nat :=
  d.year * 372 + (d.month - 1) * 31 + (d.day - 1)

/-- Gregorian leap-year test, for validating day-of-month. -/
def isLeap (y : Nat) : Bool :=
  (y % 4 == 0 && y % 100 != 0) || y % 400 == 0

/-- Number of days in a month of a given year. -/
def daysInMonth (y m : Nat) : Nat :=
  if m = 2 then (if isLeap y then 29 else 28)
  else if m = 4 || m = 6 || m = 9 || m = 11 then 30
  else 31

/-- Value of a decimal digit character. -/
def digitVal? (c : Char) : Option Nat :=
  if c.isDigit then some (c.toNat - 48) else none

/-- Parse an ISO `YYYY-MM-DD` date string to a valid calendar date, the
model of `new Date(string)` on the day-precision ISO strings this
repository's front matter uses (every date in the content files has this
exact form); `none` models an invalid date. -/
def parseDate (s : String) : Option SimpleDate := do
  match s.data with
  | [y1, y2, y3, y4, h1, m1, m2, h2, d1, d2] =>
    if h1 = '-' && h2 = '-' then
      let a ← digitVal? y1
      let b ← digitVal? y2
      let c ← digitVal? y3
      let e ← digitVal? y4
      let f ← digitVal? m1
      let g ← digitVal? m2
      let i ← digitVal? d1
      let j ← digitVal? d2
      let y := ((a * 10 + b) * 10 + c) * 10 + e
      let m := f * 10 + g
      let d := i * 10 + j
      if 1 ≤ m && m ≤ 12 && 1 ≤ d && d ≤ daysInMonth y m then
        some ⟨y, m, d⟩
      else none
    else none
  | _ => none

/-- The validated front matter of one post, the output type of the zod
schema in `src/content.config.ts`. -/
structure BlogData where
  title : String
  description : String
  date : SimpleDate
  tldr : String
  draft : Bool
deriving Repr, DecidableEq

/-- The raw front matter of one file as handed to the schema: each
recognized field either absent or mapped to a raw value. -/
structure RawFM where
  title : Option FMValue
  description : Option FMValue
  date : Option FMValue
  tldr : Option FMValue
  draft : Option FMValue
deriving Repr, DecidableEq

/-- `z.string()` applied to an (optional) field: succeeds exactly on a
present string value — any string, the empty string included — and fails
naming the field otherwise. -/
def zString (field : String) : Option FMValue → Except String String
  | some (.str s) => .ok s
  | some _ => .error (field ++ ": expected string")
  | none => .error (field ++ ": required")

/-- `z.coerce.date()` applied to an (optional) field: coerces the value
to a `Date` and fails on an invalid date or a missing field.  Modelled
for string inputs (the only kind this repository's front matter
contains); non-string values are treated as failing coercion. -/
def zCoerceDate (field : String) : Option FMValue → Except String SimpleDate
  | some (.str s) =>
    match parseDate s with
    | some d => .ok d
    | none => .error (field ++ ": invalid date")
  | some _ => .error (field ++ ": invalid date")
  | none => .error (field ++ ": required")

/-- `z.boolean().default(false)` applied to an (optional) field: a
missing field yields `false`, a boolean yields itself, anything else
fails naming the field. -/
def zBoolDefaultFalse (field : String) : Option FMValue → Except String Bool
  | none => .ok false
  | some (.boolVal b) => .ok b
  | some _ => .error (field ++ ": expected boolean")

/-- From `src/content.config.ts`: the blog collection's zod schema —
`z.object({ title: z.string(), description: z.string(),
date: z.coerce.date(), tldr: z.string(), draft:
z.boolean().default(false) })` — checking one file's front matter. -/
def parseFrontMatter (fm : RawFM) : Except String BlogData := do
  let title ← zString "title" fm.title
  let description ← zString "description" fm.description
  let date ← zCoerceDate "date" fm.date
  let tldr ← zString "tldr" fm.tldr
  let draft ← zBoolDefaultFalse "draft" fm.draft
  return ⟨title, description, date, tldr, draft⟩

/-- Loading the collection: every matched file's front matter is checked
against the schema; the first schema violation fails the whole load with
its error (the file is identified by its slug). -/
def loadCollection : List (String × RawFM) → Except String (List (String × BlogData))
  | [] => .ok []
  | (slug, fm) :: rest =>
    match parseFrontMatter fm with
    | .error e => .error (slug ++ ": " ++ e)
    | .ok d => do
      let tail ← loadCollection rest
      return (slug, d) :: tail

/-- A loaded collection entry as the pages see it: an id (slug) and the
validated `data`. -/
structure Post where
  id : String
  data : BlogData
deriving Repr, DecidableEq

/-- From `src/content.config.ts`: `getPosts` — filter the loaded
collection by `import.meta.env.PROD ? !post.data.draft : true`, with the
build-mode flag made an explicit parameter. -/
def getPosts (PROD : Bool) (collection : List Post) : List Post :=
  collection.filter (fun post => if PROD then !post.data.draft else true)

/-- The comparator of `src/pages/blog/index.astro`,
`(a, b) => b.data.date.valueOf() - a.data.date.valueOf()`, as the
relation it sorts by: `a` precedes `b` when the comparator is ≤ 0,
i.e. `b.data.date.valueOf() ≤ a.data.date.valueOf()`. -/
def dateDescRel (a b : Post) : Prop :=
  b.data.date.valueOf ≤ a.data.date.valueOf

instance : DecidableRel dateDescRel := fun a b =>
  Nat.decLe b.data.date.valueOf a.data.date.valueOf

instance : IsTotal Post dateDescRel :=
  ⟨fun a b => Nat.le_total b.data.date.valueOf a.data.date.valueOf⟩

instance : IsTrans Post dateDescRel :=
  ⟨fun _ _ _ h1 h2 => Nat.le_trans h2 h1⟩

/-- The contents-level effect of the `.sort` call in
`src/pages/blog/index.astro`: a stable sort of the posts by the date
comparator (most recent first). -/
def sortedByDateDescending (posts : List Post) : List Post :=
  posts.insertionSort dateDescRel

/-- A JavaScript array value: an object identity plus contents.  Needed
to state mutation claims about `Array.prototype.sort`, which per the
ECMAScript specification sorts the array in place and returns that same
array object. -/
structure JsArray where
  ident : Nat
  contents : List Post
deriving Repr, DecidableEq

/-- The `.sort(comparator)` call of `src/pages/blog/index.astro` on an
array: per ECMAScript, the array's contents are replaced by the sorted
sequence and the very same array object is returned — so the state of
the input array after the call and the returned value are one and the
same array, with sorted contents. -/
def sortCall (a : JsArray) : JsArray :=
  ⟨a.ident, sortedByDateDescending a.contents⟩

/-- Whether a node ends a section opened by a heading of depth `d`:
a heading of the same or higher level (smaller-or-equal depth), or a
section already built for one. -/
def breaksSection (d : Nat) (m : Node) : Bool :=
  (m.type == "heading" || m.type == "section") && m.depth ≤ d

/-- One right-fold step of sectionization: a heading absorbs the already
processed nodes that follow it, up to the next same-or-higher-level
heading or section, into one `section` container (tagged with the
heading's depth so shallower headings can absorb it in turn); any other
node is kept as-is. -/
def sectionizeStep (n : Node) (acc : List Node) : List Node :=
  if n.type == "heading" then
    let s := acc.span (fun m => !breaksSection n.depth m)
    Node.mk "section" n.depth "" "" none (n :: s.1) :: s.2
  else n :: acc

/-- Modelled from the spec: the `@mdxvac/remark-sectionize-headings`
stage, whose code is an external package and not in the repository —
"group each heading and all subsequent nodes up to the next
same-or-higher-level heading into a wrapping section container", a
strict regrouping of the tree's top-level children with no node
rewritten, dropped or duplicated. -/
def sectionizeChildren (ns : List Node) : List Node :=
  ns.foldr sectionizeStep []

/-- Modelled from the spec: sectionization applied to a document tree —
regroups the top-level children into nested sections. -/
def sectionize (tree : Node) : Node :=
  .mk tree.type tree.depth tree.value tree.url tree.target
    (sectionizeChildren tree.children)

mutual

/-- Modelled from the spec: the math-rendering stage (`remark-math` +
`rehype-katex`, both external packages not in the repository) — "locate
inline/block math-notation spans and replace them with their rendered
equivalent markup", all other nodes left in place with their children
processed recursively.  The renderer itself is a parameter `render`
mapping math source to rendered markup (a malformed span renders to a
visible error marker, still a plain rendered node). -/
def mathRender (render : String → String) : Node → Node
  | .mk ty d v u tg cs =>
    if ty == "math" || ty == "inlineMath" then
      .mk "mathRendered" 0 (render v) "" none []
    else
      .mk ty d v u tg (mathRenderList render cs)

/-- Math rendering mapped over a list of sibling nodes. -/
def mathRenderList (render : String → String) : List Node → List Node
  | [] => []
  | n :: ns => mathRender render n :: mathRenderList render ns

end

/-- From `astro.config.mjs`: the full transform pipeline in the declared
order — `remarkPlugins: [insertLeadingH2, sectionizeHeadings,
remarkMath]` then `rehypePlugins: [rehypeKatex]`.  The configuration
declares no further stage: in particular no stage that touches link
`target` attributes appears in it. -/
def fullPipeline (render : String → String) (tree : Node) : Node :=
  mathRender render (sectionize (insertLeadingH2 "" tree))

mutual

/-- All `target` attributes of anchor/link nodes with an href, collected
in tree order.  A claim about "every anchor element with an href" is a
claim about every entry of this list. -/
def Node.hrefLinkTargets : Node → List (Option String)
  | .mk ty _ _ u tg cs =>
    (if (ty == "link" || ty == "element-a") && u ≠ "" then [tg] else [])
      ++ hrefLinkTargetsList cs

/-- href-anchor targets collected over a list of sibling nodes. -/
def hrefLinkTargetsList : List Node → List (Option String)
  | [] => []
  | n :: ns => n.hrefLinkTargets ++ hrefLinkTargetsList ns

end

mutual

/-- Whether no node anywhere in the tree has a `target` attribute set. -/
def Node.noTargetSet : Node → Bool
  | .mk _ _ _ _ tg cs => tg.isNone && noTargetSetList cs

/-- `Node.noTargetSet` over a list of sibling nodes. -/
def noTargetSetList : List Node → Bool
  | [] => true
  | n :: ns => n.noTargetSet && noTargetSetList ns

end

/-! ### Sample data used by witnesses and counterexamples -/

/-- A sample post with the given slug, date and draft flag. -/
def samplePost (slug : String) (d : SimpleDate) (dr : Bool) : Post :=
  ⟨slug, ⟨"T", "D", d, "t", dr⟩⟩

/-- A post dated 2023-05-05. -/
def post2023 : Post := samplePost "older" ⟨2023, 5, 5⟩ false

/-- A post dated 2024-01-01. -/
def post2024 : Post := samplePost "newer" ⟨2024, 1, 1⟩ false

/-! ### Helper lemmas -/

/-- The development listing is the whole collection, unfiltered. -/
theorem getPosts_false_eq (collection : List Post) :
    getPosts false collection = collection := by
  simp [getPosts]

/-- The production listing keeps exactly the non-draft posts. -/
theorem getPosts_true_eq (collection : List Post) :
    getPosts true collection = collection.filter (fun p => !p.data.draft) := by
  simp [getPosts]

/-- The sort result is pairwise ordered by the date comparator. -/
theorem sortedByDateDescending_pairwise (l : List Post) :
    (sortedByDateDescending l).Pairwise dateDescRel :=
  List.sorted_insertionSort dateDescRel l

/-- The sort result is a permutation of the input. -/
theorem sortedByDateDescending_perm (l : List Post) :
    (sortedByDateDescending l).Perm l :=
  List.perm_insertionSort dateDescRel l

/-! ### Claim theorems -/

/-- C1: for every loaded collection and every document in it, the
development listing (`getPosts false`) contains the document whatever
its draft flag, and the production listing (`getPosts true`) contains it
iff its draft flag is false. -/
theorem getPosts_dev_and_prod_membership (collection : List Post) (d : Post)
    (hmem : d ∈ collection) :
    d ∈ getPosts false collection ∧
      (d ∈ getPosts true collection ↔ d.data.draft = false) := by
  constructor
  · rw [getPosts_false_eq]; exact hmem
  · rw [getPosts_true_eq]
    simp [List.mem_filter, hmem]

/-- Witness for C1 at a concrete one-element collection holding a draft
post. -/
theorem getPosts_dev_and_prod_membership_witness :
    samplePost "a" ⟨2024, 1, 1⟩ true ∈ [samplePost "a" ⟨2024, 1, 1⟩ true] ∧
      (samplePost "a" ⟨2024, 1, 1⟩ true ∈
          getPosts false [samplePost "a" ⟨2024, 1, 1⟩ true] ∧
        (samplePost "a" ⟨2024, 1, 1⟩ true ∈
            getPosts true [samplePost "a" ⟨2024, 1, 1⟩ true] ↔
          (samplePost "a" ⟨2024, 1, 1⟩ true).data.draft = false)) :=
  ⟨by decide,
    getPosts_dev_and_prod_membership [samplePost "a" ⟨2024, 1, 1⟩ true]
      (samplePost "a" ⟨2024, 1, 1⟩ true) (by decide)⟩

/-- C10: the production listing is the non-draft filter of the
development listing (hence an order-preserving subsequence of it), and
the development listing is the collection itself; both are produced by
the pure `filter`, which builds a new list and leaves the collection
unchanged. -/
theorem getPosts_prod_subsequence_of_dev (collection : List Post) :
    getPosts false collection = collection ∧
      getPosts true collection =
        (getPosts false collection).filter (fun p => !p.data.draft) ∧
      (getPosts true collection).Sublist (getPosts false collection) := by
  refine ⟨getPosts_false_eq collection, ?_, ?_⟩
  · rw [getPosts_false_eq, getPosts_true_eq]
  · rw [getPosts_false_eq, getPosts_true_eq]
    exact List.filter_sublist collection

/-- C7: the sort orders documents by publication date, most recent
first — every document in the result has a date value greater than or
equal to that of every later document, the result is a permutation of
the input, and on the concrete pair dated 2024-01-01 and 2023-05-05 the
2024 document comes first. -/
theorem sortedByDateDescending_most_recent_first :
    (∀ posts : List Post,
        (sortedByDateDescending posts).Pairwise dateDescRel ∧
          (sortedByDateDescending posts).Perm posts) ∧
      sortedByDateDescending [post2023, post2024] = [post2024, post2023] := by
  refine ⟨fun posts => ⟨sortedByDateDescending_pairwise posts,
    sortedByDateDescending_perm posts⟩, ?_⟩
  decide

/-- The concrete array the C4 counterexample sorts: the older post
first, so sorting must reorder it. -/
def unsortedArr : JsArray := ⟨0, [post2023, post2024]⟩

/-- C4 counterexample: the `.sort` call on the concrete array
`[post2023, post2024]` leaves the input array's contents changed (the
array object's contents after the call differ from its contents before)
and returns the very same array object (same identity), not a new
sequence. -/
theorem sortCall_mutates_input :
    (sortCall unsortedArr).contents ≠ unsortedArr.contents ∧
      (sortCall unsortedArr).ident = unsortedArr.ident := by
  decide

/-- C4 amended: the `.sort` call sorts the array in place — the returned
array is the same object as the input, and the (mutated) contents are a
date-descending-ordered permutation of the original contents. -/
theorem sortCall_sorts_in_place (a : JsArray) :
    (sortCall a).ident = a.ident ∧
      (sortCall a).contents.Pairwise dateDescRel ∧
      ((sortCall a).contents).Perm a.contents :=
  ⟨rfl, sortedByDateDescending_pairwise a.contents,
    sortedByDateDescending_perm a.contents⟩

/-! ### Schema lemmas -/

/-- Inversion for a successful `Except` bind. -/
theorem except_bind_ok {α β : Type} {a : Except String α} {f : α → Except String β} {c : β}
    (h : (a >>= f) = .ok c) : ∃ b, a = .ok b ∧ f b = .ok c := by
  cases a with
  | error e => simp [Bind.bind, Except.bind] at h
  | ok b => exact ⟨b, rfl, by simpa [Bind.bind, Except.bind] using h⟩

/-- A successful `z.string()` check means the field was a present string. -/
theorem zString_ok {field : String} {v : Option FMValue} {s : String}
    (h : zString field v = .ok s) : v = some (.str s) := by
  cases v with
  | none => simp [zString] at h
  | some w => cases w <;> simp_all [zString]

/-- A successful `z.boolean().default(false)` check means the field was
absent or a boolean. -/
theorem zBoolDefaultFalse_ok {field : String} {v : Option FMValue} {b : Bool}
    (h : zBoolDefaultFalse field v = .ok b) : v = none ∨ v = some (.boolVal b) := by
  cases v with
  | none => exact .inl rfl
  | some w => cases w <;> simp_all [zBoolDefaultFalse]

/-- Schema evaluation: when every field check succeeds, the parsed data
is as expected. -/
theorem parseFrontMatter_eval (fm : RawFM) (t ds tl : String) (d : SimpleDate) (b : Bool)
    (ht : fm.title = some (.str t)) (hds : fm.description = some (.str ds))
    (hdate : zCoerceDate "date" fm.date = .ok d) (htl : fm.tldr = some (.str tl))
    (hdr : zBoolDefaultFalse "draft" fm.draft = .ok b) :
    parseFrontMatter fm = .ok ⟨t, ds, d, tl, b⟩ := by
  simp [parseFrontMatter, ht, hds, hdate, htl, hdr, zString]
  rfl

/-- Otherwise-valid front matter whose title and description are the
empty string. -/
def fmEmptyTitle : RawFM :=
  ⟨some (.str ""), some (.str ""), some (.str "2024-01-01"), some (.str "t"), none⟩

/-- C2 counterexample: a document whose title and description fields are
present but are the empty string loads successfully — the schema uses a
plain string check with no non-emptiness requirement, so load does not
fail as the claim states. -/
theorem load_accepts_empty_title :
    loadCollection [("post", fmEmptyTitle)] =
      .ok [("post", ⟨"", "", ⟨2024, 1, 1⟩, "t", false⟩)] := rfl

/-- C2 amended: load succeeds exactly when title, description and tldr
are present strings — the empty string included — the date coerces to a
valid date, and draft is absent or boolean; a title or description that
is absent or not a string fails, but no non-emptiness is required. -/
theorem parseFrontMatter_ok_iff (fm : RawFM) :
    (∃ bd, parseFrontMatter fm = .ok bd) ↔
      ((∃ s, fm.title = some (.str s)) ∧ (∃ s, fm.description = some (.str s)) ∧
        (∃ dt, zCoerceDate "date" fm.date = .ok dt) ∧
        (∃ s, fm.tldr = some (.str s)) ∧
        (fm.draft = none ∨ ∃ b, fm.draft = some (.boolVal b))) := by
  constructor
  · rintro ⟨bd, hbd⟩
    unfold parseFrontMatter at hbd
    obtain ⟨t0, ht0, hbd⟩ := except_bind_ok hbd
    obtain ⟨ds0, hds0, hbd⟩ := except_bind_ok hbd
    obtain ⟨d0, hd0, hbd⟩ := except_bind_ok hbd
    obtain ⟨tl0, htl0, hbd⟩ := except_bind_ok hbd
    obtain ⟨b0, hb0, _⟩ := except_bind_ok hbd
    refine ⟨⟨t0, zString_ok ht0⟩, ⟨ds0, zString_ok hds0⟩, ⟨d0, hd0⟩,
      ⟨tl0, zString_ok htl0⟩, ?_⟩
    rcases zBoolDefaultFalse_ok hb0 with h | h
    · exact .inl h
    · exact .inr ⟨b0, h⟩
  · rintro ⟨⟨ts, hts⟩, ⟨dss, hdss⟩, ⟨d0, hd0⟩, ⟨tls, htls⟩, hdr⟩
    rcases hdr with hdr | ⟨b, hdr⟩
    · exact ⟨_, parseFrontMatter_eval fm ts dss tls d0 false hts hdss hd0 htls
        (by rw [hdr]; rfl)⟩
    · exact ⟨_, parseFrontMatter_eval fm ts dss tls d0 b hts hdss hd0 htls
        (by rw [hdr]; rfl)⟩

/-- C8: with the other fields valid, front matter with no draft field
parses with the draft flag false, and front matter whose draft field is
a boolean parses with exactly that flag. -/
theorem parseFrontMatter_draft_default (fm : RawFM) (t ds tl : String) (d : SimpleDate)
    (ht : fm.title = some (.str t)) (hds : fm.description = some (.str ds))
    (hdate : zCoerceDate "date" fm.date = .ok d) (htl : fm.tldr = some (.str tl)) :
    (fm.draft = none → parseFrontMatter fm = .ok ⟨t, ds, d, tl, false⟩) ∧
      (∀ b : Bool, fm.draft = some (.boolVal b) →
        parseFrontMatter fm = .ok ⟨t, ds, d, tl, b⟩) := by
  constructor
  · intro hdr
    exact parseFrontMatter_eval fm t ds tl d false ht hds hdate htl (by rw [hdr]; rfl)
  · intro b hdr
    exact parseFrontMatter_eval fm t ds tl d b ht hds hdate htl (by rw [hdr]; rfl)

/-- Valid front matter with no draft field. -/
def fmNoDraft : RawFM :=
  ⟨some (.str "T"), some (.str "D"), some (.str "2024-01-01"), some (.str "t"), none⟩

/-- Valid front matter with `draft: true`. -/
def fmDraftTrue : RawFM :=
  ⟨some (.str "T"), some (.str "D"), some (.str "2024-01-01"), some (.str "t"),
    some (.boolVal true)⟩

/-- Witness for C8 at concrete front matter: draft absent parses to
false, `draft: true` parses to true. -/
theorem parseFrontMatter_draft_default_witness :
    parseFrontMatter fmNoDraft = .ok ⟨"T", "D", ⟨2024, 1, 1⟩, "t", false⟩ ∧
      parseFrontMatter fmDraftTrue = .ok ⟨"T", "D", ⟨2024, 1, 1⟩, "t", true⟩ :=
  ⟨(parseFrontMatter_draft_default fmNoDraft "T" "D" "t" ⟨2024, 1, 1⟩ rfl rfl
      (by rfl) rfl).1 rfl,
    (parseFrontMatter_draft_default fmDraftTrue "T" "D" "t" ⟨2024, 1, 1⟩ rfl rfl
      (by rfl) rfl).2 true rfl⟩

/-! ### Leading-anchor insertion lemmas -/

/-- Unfolding equation for `insertLeadingH2Children` on a nonempty
list. -/
theorem insertLeadingH2Children_cons (text : String) (n : Node) (ns : List Node) :
    insertLeadingH2Children text (n :: ns) =
      if isContentNode n then
        if n.type == "heading" && n.depth == 2 then n :: ns
        else syntheticH2 text :: n :: ns
      else n :: insertLeadingH2Children text ns := rfl

/-- The walk passes over a prefix of non-content (import/export/esm)
nodes unchanged. -/
theorem insertLeadingH2Children_skip (text : String) (pre rest : List Node)
    (hpre : ∀ n ∈ pre, isContentNode n = false) :
    insertLeadingH2Children text (pre ++ rest) = pre ++ insertLeadingH2Children text rest := by
  induction pre with
  | nil => rfl
  | cons n ns ih =>
    have hn : isContentNode n = false := hpre n (by simp)
    rw [List.cons_append, insertLeadingH2Children_cons, if_neg (by simp [hn]),
      ih (fun m hm => hpre m (by simp [hm])), List.cons_append]

/-- A list with no content node at all is left unchanged. -/
theorem insertLeadingH2Children_all_noncontent (text : String) (ns : List Node)
    (h : ∀ n ∈ ns, isContentNode n = false) :
    insertLeadingH2Children text ns = ns := by
  induction ns with
  | nil => rfl
  | cons n ns ih =>
    have hn := h n (by simp)
    rw [insertLeadingH2Children_cons, if_neg (by simp [hn]),
      ih (fun m hm => h m (by simp [hm]))]

/-! ### Sample trees -/

/-- An MDX import node (skipped by the content-node test). -/
def importNode : Node := .mk "import" 0 "" "" none []

/-- A plain paragraph node. -/
def paraNode : Node := .mk "paragraph" 0 "" "" none [.mk "text" 0 "hello" "" none []]

/-- A level-2 heading node. -/
def h2Node : Node := .mk "heading" 2 "" "" none [.mk "text" 0 "Intro" "" none []]

/-- A document whose first content node is a paragraph, preceded by one
MDX import node. -/
def exDocNoHeading : Node := .mk "root" 0 "" "" none [importNode, paraNode]

/-- A document consisting only of an import node: no content node. -/
def exDocOnlyImports : Node := .mk "root" 0 "" "" none [importNode]

/-- A document whose first content node is already a level-2 heading. -/
def exDocH2First : Node := .mk "root" 0 "" "" none [importNode, h2Node, paraNode]

/-- C5: when the tree's children split as a prefix of non-content nodes
followed by a first content node that is not a level-2 heading,
`insertLeadingH2` inserts exactly one synthetic empty level-2 heading
immediately before that node, and the child count grows by exactly
one. -/
theorem insertLeadingH2_inserts_exactly_one (text : String) (tree : Node)
    (pre post : List Node) (first : Node)
    (hsplit : tree.children = pre ++ first :: post)
    (hpre : ∀ n ∈ pre, isContentNode n = false)
    (hfirst : isContentNode first = true)
    (hnotH2 : ¬(first.type = "heading" ∧ first.depth = 2)) :
    (insertLeadingH2 text tree).children = pre ++ syntheticH2 text :: first :: post ∧
      (insertLeadingH2 text tree).children.length = tree.children.length + 1 := by
  have hchildren : (insertLeadingH2 text tree).children
      = insertLeadingH2Children text tree.children := rfl
  have hcond : (first.type == "heading" && first.depth == 2) = false := by
    by_cases h1 : first.type = "heading"
    · by_cases h2 : first.depth = 2
      · exact absurd ⟨h1, h2⟩ hnotH2
      · simp [h2]
    · simp [h1]
  have key : (insertLeadingH2 text tree).children
      = pre ++ syntheticH2 text :: first :: post := by
    rw [hchildren, hsplit, insertLeadingH2Children_skip text pre _ hpre,
      insertLeadingH2Children_cons, if_pos hfirst, if_neg (by simp [hcond])]
  refine ⟨key, ?_⟩
  rw [key, hsplit]
  simp [List.length_append]
  omega

/-- Witness for C5: a document `[import, paragraph]` gains exactly the
synthetic heading before the paragraph. -/
theorem insertLeadingH2_inserts_exactly_one_witness :
    (insertLeadingH2 "" exDocNoHeading).children
        = [importNode] ++ syntheticH2 "" :: paraNode :: [] ∧
      (insertLeadingH2 "" exDocNoHeading).children.length
        = exDocNoHeading.children.length + 1 :=
  insertLeadingH2_inserts_exactly_one "" exDocNoHeading [importNode] [] paraNode rfl
    (by decide) rfl (by decide)

/-- C6: `insertLeadingH2` leaves the tree completely unchanged both when
no content node exists (imports/exports/metadata only) and when the
first content node is already a level-2 heading. -/
theorem insertLeadingH2_noop_cases (text : String) (tree : Node) :
    ((∀ n ∈ tree.children, isContentNode n = false) → insertLeadingH2 text tree = tree) ∧
      (∀ pre first post, tree.children = pre ++ first :: post →
        (∀ n ∈ pre, isContentNode n = false) → isContentNode first = true →
        first.type = "heading" → first.depth = 2 →
        insertLeadingH2 text tree = tree) := by
  obtain ⟨ty, dp, v, u, tg, cs⟩ := tree
  constructor
  · intro h
    simp only [Node.children] at h
    show Node.mk ty dp v u tg (insertLeadingH2Children text cs) = Node.mk ty dp v u tg cs
    rw [insertLeadingH2Children_all_noncontent text cs h]
  · intro pre first post hsplit hpre hfirst hty hdp
    simp only [Node.children] at hsplit
    subst hsplit
    have hcond : (first.type == "heading" && first.depth == 2) = true := by
      simp [hty, hdp]
    show Node.mk ty dp v u tg (insertLeadingH2Children text (pre ++ first :: post))
        = Node.mk ty dp v u tg (pre ++ first :: post)
    rw [insertLeadingH2Children_skip text pre _ hpre, insertLeadingH2Children_cons,
      if_pos hfirst, if_pos hcond]

/-- Witness for C6: an import-only document and a document whose first
content node is a level-2 heading are both left unchanged. -/
theorem insertLeadingH2_noop_cases_witness :
    insertLeadingH2 "" exDocOnlyImports = exDocOnlyImports ∧
      insertLeadingH2 "" exDocH2First = exDocH2First :=
  ⟨(insertLeadingH2_noop_cases "" exDocOnlyImports).1 (by decide),
    (insertLeadingH2_noop_cases "" exDocH2First).2 [importNode] h2Node [paraNode] rfl
      (by decide) rfl rfl rfl⟩

/-- After one pass, a second pass over the children changes nothing: the
pass either stopped at an existing level-2 heading, inserted one (which
the second pass then stops at), or saw no content node at all. -/
theorem insertLeadingH2Children_idem (text : String) (ns : List Node) :
    insertLeadingH2Children text (insertLeadingH2Children text ns)
      = insertLeadingH2Children text ns := by
  have hsyn_content : isContentNode (syntheticH2 text) = true := rfl
  have hsyn_h2 : ((syntheticH2 text).type == "heading"
      && (syntheticH2 text).depth == 2) = true := rfl
  induction ns with
  | nil => rfl
  | cons n ns ih =>
    by_cases hc : isContentNode n
    · by_cases hh : (n.type == "heading" && n.depth == 2) = true
      · rw [insertLeadingH2Children_cons, if_pos hc, if_pos hh,
          insertLeadingH2Children_cons, if_pos hc, if_pos hh]
      · have hh' : (n.type == "heading" && n.depth == 2) = false := by
          simpa using hh
        rw [insertLeadingH2Children_cons, if_pos hc, if_neg (by simp [hh']),
          insertLeadingH2Children_cons, if_pos hsyn_content, if_pos hsyn_h2]
    · have hc' : isContentNode n = false := by simpa using hc
      rw [insertLeadingH2Children_cons, if_neg (by simp [hc']),
        insertLeadingH2Children_cons, if_neg (by simp [hc']), ih]

/-- C9: applying the `insertLeadingH2` stage twice produces the same
tree as applying it once — after one application the first content node
is always a level-2 heading (the pre-existing one or the inserted
synthetic one), so the second application is a no-op. -/
theorem insertLeadingH2_idempotent (text : String) (tree : Node) :
    insertLeadingH2 text (insertLeadingH2 text tree) = insertLeadingH2 text tree := by
  obtain ⟨ty, dp, v, u, tg, cs⟩ := tree
  show Node.mk ty dp v u tg (insertLeadingH2Children text (insertLeadingH2Children text cs))
      = Node.mk ty dp v u tg (insertLeadingH2Children text cs)
  rw [insertLeadingH2Children_idem]

/-! ### Pipeline target-attribute lemmas -/

/-- `noTargetSetList` is the conjunction of `Node.noTargetSet` over the
list. -/
theorem noTargetSetList_iff (l : List Node) :
    noTargetSetList l = true ↔ ∀ n ∈ l, n.noTargetSet = true := by
  induction l with
  | nil => simp [noTargetSetList]
  | cons n ns ih => simp [noTargetSetList, ih]

/-- Leading-anchor insertion sets no target attribute: the synthetic
heading carries none and every original node is kept as-is. -/
theorem insertLeadingH2Children_noTargetSet (text : String) (ns : List Node)
    (h : noTargetSetList ns = true) :
    noTargetSetList (insertLeadingH2Children text ns) = true := by
  have hsyn : (syntheticH2 text).noTargetSet = true := rfl
  induction ns with
  | nil => exact h
  | cons n ns ih =>
    rw [noTargetSetList, Bool.and_eq_true] at h
    rw [insertLeadingH2Children_cons]
    by_cases hc : isContentNode n
    · rw [if_pos hc]
      by_cases hh : (n.type == "heading" && n.depth == 2) = true
      · rw [if_pos hh, noTargetSetList]
        simp [h.1, h.2]
      · rw [if_neg hh, noTargetSetList, noTargetSetList]
        simp [hsyn, h.1, h.2]
    · rw [if_neg hc, noTargetSetList]
      simp [h.1, ih h.2]

/-- One sectionization step sets no target attribute: the section
wrapper carries none and regroups existing nodes. -/
theorem sectionizeStep_noTargetSet (n : Node) (acc : List Node)
    (hn : n.noTargetSet = true) (hacc : noTargetSetList acc = true) :
    noTargetSetList (sectionizeStep n acc) = true := by
  rw [sectionizeStep]
  by_cases h : (n.type == "heading") = true
  · rw [if_pos h]
    have hmem := (noTargetSetList_iff acc).mp hacc
    have h1 : ∀ m ∈ (acc.span (fun m => !breaksSection n.depth m)).1,
        m.noTargetSet = true := by
      intro m hm
      rw [List.span_eq_take_drop] at hm
      exact hmem m ((List.takeWhile_sublist _).subset hm)
    have h2 : ∀ m ∈ (acc.span (fun m => !breaksSection n.depth m)).2,
        m.noTargetSet = true := by
      intro m hm
      rw [List.span_eq_take_drop] at hm
      exact hmem m ((List.dropWhile_sublist _).subset hm)
    rw [noTargetSetList, Bool.and_eq_true]
    constructor
    · rw [Node.noTargetSet, Bool.and_eq_true]
      refine ⟨rfl, ?_⟩
      rw [noTargetSetList, Bool.and_eq_true]
      exact ⟨hn, (noTargetSetList_iff _).mpr h1⟩
    · exact (noTargetSetList_iff _).mpr h2
  · rw [if_neg h, noTargetSetList]
    simp [hn, hacc]

/-- Sectionization of a child list sets no target attribute. -/
theorem foldr_sectionizeStep_noTargetSet (ns : List Node)
    (h : noTargetSetList ns = true) :
    noTargetSetList (List.foldr sectionizeStep [] ns) = true := by
  induction ns with
  | nil => rfl
  | cons n ns ih =>
    rw [noTargetSetList, Bool.and_eq_true] at h
    rw [List.foldr_cons]
    exact sectionizeStep_noTargetSet n _ h.1 (ih h.2)

mutual

/-- Math rendering sets no target attribute on any node. -/
theorem mathRender_noTargetSet (render : String → String) :
    ∀ n : Node, n.noTargetSet = true → (mathRender render n).noTargetSet = true
  | .mk ty d v u tg cs, h => by
    rw [mathRender]
    by_cases hm : (ty == "math" || ty == "inlineMath") = true
    · rw [if_pos hm]
      rfl
    · rw [if_neg hm]
      rw [Node.noTargetSet, Bool.and_eq_true] at h
      rw [Node.noTargetSet, Bool.and_eq_true]
      exact ⟨h.1, mathRenderList_noTargetSet render cs h.2⟩

/-- Math rendering over a sibling list sets no target attribute. -/
theorem mathRenderList_noTargetSet (render : String → String) :
    ∀ ns : List Node, noTargetSetList ns = true →
      noTargetSetList (mathRenderList render ns) = true
  | [], _ => rfl
  | n :: ns, h => by
    rw [noTargetSetList, Bool.and_eq_true] at h
    rw [mathRenderList, noTargetSetList, Bool.and_eq_true]
    exact ⟨mathRender_noTargetSet render n h.1, mathRenderList_noTargetSet render ns h.2⟩

end

/-- A link carrying an href (`url`) and no target attribute, inside a
paragraph. -/
def exLink : Node := .mk "link" 0 "" "https://example.com" none [.mk "text" 0 "x" "" none []]

/-- A document whose body is one paragraph containing `exLink`. -/
def exLinkDoc : Node := .mk "root" 0 "" "" none [.mk "paragraph" 0 "" "" none [exLink]]

/-- C3 counterexample: on a concrete document containing exactly one
anchor with an href, running the full configured pipeline leaves that
anchor's target attribute unset (`none`) — no stage of the configured
pipeline sets targets, so navigation is not made to open in a new
browsing context as the claim states. -/
theorem fullPipeline_target_unset_counterexample :
    (fullPipeline id exLinkDoc).hrefLinkTargets = [none] ∧
      exLinkDoc.hrefLinkTargets = [none] :=
  ⟨rfl, rfl⟩

/-- C3 amended: the configured transform pipeline contains no
outbound-link annotation stage, and none of its stages ever sets a
target attribute — a tree with no target attributes set still has none
set after the full pipeline runs (trivially, running the absent
annotation twice equals running it once). -/
theorem fullPipeline_never_sets_target (render : String → String) (tree : Node)
    (h : tree.noTargetSet = true) :
    (fullPipeline render tree).noTargetSet = true := by
  obtain ⟨ty, dp, v, u, tg, cs⟩ := tree
  rw [Node.noTargetSet, Bool.and_eq_true] at h
  refine mathRender_noTargetSet render _ ?_
  show Node.noTargetSet (.mk ty dp v u tg
    (List.foldr sectionizeStep [] (insertLeadingH2Children "" cs))) = true
  rw [Node.noTargetSet, Bool.and_eq_true]
  exact ⟨h.1, foldr_sectionizeStep_noTargetSet _
    (insertLeadingH2Children_noTargetSet "" cs h.2)⟩

/-- Witness for the amended C3 at the concrete link document. -/
theorem fullPipeline_never_sets_target_witness :
    exLinkDoc.noTargetSet = true ∧ (fullPipeline id exLinkDoc).noTargetSet = true :=
  ⟨rfl, fullPipeline_never_sets_target id exLinkDoc rfl⟩
